import Mathlib

/-
  Shallow embedding of the learnwgpu repository (src/lib.rs, src/main.rs,
  src/state.rs): the render-state machine (State, RenderPipelineState,
  ShapeState), its input handling, clear-color accumulation, resize and
  surface-error handling, together with proofs of the specification claims.

  Color channels (f64 in wgpu::Color) and camera distances (f32) are
  embedded as exact rationals; the decimal literals of the source are exactly
  representable there, and every operation on them in the source is a plain
  addition or subtraction of such literals.
-/

namespace Learnwgpu

/- `RenderState` from state.rs (the two shader pipelines / render modes). -/
inductive RenderState
  | Standard
  | PositionColor
deriving DecidableEq, Repr

/- `Shapes` from state.rs. -/
inductive Shapes
  | Pentagon
  | Arrow
deriving DecidableEq, Repr

/- `wgpu::Color` (r, g, b, a), embedded with exact rational channels. -/
structure Color where
  r : ℚ
  g : ℚ
  b : ℚ
  a : ℚ
deriving DecidableEq, Repr

/- `winit::dpi::PhysicalSize<u32>`. -/
structure PhysicalSize where
  width : Nat
  height : Nat
deriving DecidableEq, Repr

/- `wgpu::SurfaceConfiguration`, restricted to the fields the program ever
   mutates: `width` and `height`. The remaining fields (usage, format,
   present_mode, alpha_mode, view_formats, desired_maximum_frame_latency)
   are fixed at construction in `State::new` and never written afterwards. -/
structure SurfaceConfiguration where
  width : Nat
  height : Nat
deriving DecidableEq, Repr

/- `winit::event::ElementState`. -/
inductive ElementState
  | Pressed
  | Released
deriving DecidableEq, Repr

/- `winit::event::MouseButton` (variants used by the program). -/
inductive MouseButton
  | Left
  | Right
  | Middle
deriving DecidableEq, Repr

/- `winit::keyboard::KeyCode`, restricted to keys the program matches on
   plus representative others; patterns in the source always go through
   `PhysicalKey::Code`. -/
inductive KeyCode
  | Space
  | KeyZ
  | Escape
  | KeyW
  | KeyA
  | KeyS
  | KeyD
deriving DecidableEq, Repr

/- `winit::event::KeyEvent` restricted to the fields the program matches:
   physical_key, state, repeat. -/
structure KeyEvent where
  physical_key : KeyCode
  state : ElementState
  «repeat» : Bool
deriving DecidableEq, Repr

/- `winit::event::WindowEvent`, restricted to the variants the program
   matches on. -/
inductive WindowEvent
  | MouseInput (state : ElementState) (button : MouseButton)
  | KeyboardInput (event : KeyEvent)
  | Resized (new_size : PhysicalSize)
  | RedrawRequested
  | CloseRequested
deriving DecidableEq, Repr

/- The mutable fields of `State` (state.rs) that the render-state machine
   reads or writes: the surface configuration, the stored window size, the
   clear color, `RenderPipelineState.state` and `ShapeState.state`. The
   GPU handles (surface, device, queue, buffers, bind groups, pipelines)
   are opaque resources created once in `State::new`; the camera fields are
   mutated only by the camera controller (modelled separately, see
   `update_camera_forward`). -/
structure State where
  config : SurfaceConfiguration
  size : PhysicalSize
  clear : Color
  render_state : RenderState
  shape_state : Shapes
deriving DecidableEq, Repr

/- `RenderPipelineState::next` (state.rs lines 419-424): the other variant. -/
def RenderPipelineState.next : RenderState → RenderState
  | RenderState.Standard => RenderState.PositionColor
  | RenderState.PositionColor => RenderState.Standard

/- `ShapeState::swap` (state.rs lines 547-556): the other variant. -/
def ShapeState.swap : Shapes → Shapes
  | Shapes.Pentagon => Shapes.Arrow
  | Shapes.Arrow => Shapes.Pentagon

/- The state built by `State::new` (state.rs): `config.width/height` copy
   the window's inner size (lines 75-84), `clear` is (0.1, 0.2, 0.2, 1.0)
   (lines 124-129), `RenderPipelineState::new` starts at `Standard`
   (line 402) and `ShapeState::new` starts at `Pentagon` (line 518). -/
def State.new (size : PhysicalSize) : State where
  config := { width := size.width, height := size.height }
  size := size
  clear := { r := 0.1, g := 0.2, b := 0.2, a := 1.0 }
  render_state := RenderState.Standard
  shape_state := Shapes.Pentagon

/- `State::alter_clear` (state.rs lines 293-297):
   `clear.r += 0.15; clear.b += 0.2; clear.g -= -0.1;`. -/
def State.alter_clear (s : State) : State :=
  { s with clear := { r := s.clear.r + 0.15
                      g := s.clear.g - (-0.1)
                      b := s.clear.b + 0.2
                      a := s.clear.a } }

/- `State::input` (state.rs lines 312-338): a primary-pointer press edge
   alters the clear color; a Space press edge with repeat=false advances
   `RenderPipelineState.state`; a Z press edge with repeat=false swaps
   `ShapeState.state`; every other event leaves the state unchanged.
   (The call into `CameraController::process_events` mutates only camera
   controller flags, none of the fields modelled here.) -/
def State.input (s : State) (event : WindowEvent) : State :=
  match event with
  | WindowEvent.MouseInput ElementState.Pressed MouseButton.Left =>
      s.alter_clear
  | WindowEvent.KeyboardInput ⟨KeyCode.Space, ElementState.Pressed, false⟩ =>
      { s with render_state := RenderPipelineState.next s.render_state }
  | WindowEvent.KeyboardInput ⟨KeyCode.KeyZ, ElementState.Pressed, false⟩ =>
      { s with shape_state := ShapeState.swap s.shape_state }
  | _ => s

/- Folding `State::input` over a sequence of window events. -/
def State.inputs (s : State) (events : List WindowEvent) : State :=
  events.foldl State.input s

/- A toggle-mode press edge: Space, pressed, repeat=false. -/
def toggle_mode_edge : WindowEvent → Bool
  | WindowEvent.KeyboardInput ⟨KeyCode.Space, ElementState.Pressed, false⟩ => true
  | _ => false

/- A toggle-shape press edge: Z, pressed, repeat=false. -/
def toggle_shape_edge : WindowEvent → Bool
  | WindowEvent.KeyboardInput ⟨KeyCode.KeyZ, ElementState.Pressed, false⟩ => true
  | _ => false

/- The toggle-mode press edge event. -/
def space_press : WindowEvent :=
  WindowEvent.KeyboardInput ⟨KeyCode.Space, ElementState.Pressed, false⟩

/- A synthetic Space key event with repeat=true while held. -/
def space_held : WindowEvent :=
  WindowEvent.KeyboardInput ⟨KeyCode.Space, ElementState.Pressed, true⟩

/- The Space release event. -/
def space_release : WindowEvent :=
  WindowEvent.KeyboardInput ⟨KeyCode.Space, ElementState.Released, false⟩

/- The primary-pointer press edge event. -/
def mouse_left_press : WindowEvent :=
  WindowEvent.MouseInput ElementState.Pressed MouseButton.Left

/- The two bind group layouts created in `State::new` (state.rs lines
   88-108 and 152-166). -/
inductive BindGroupLayoutId
  | texture_bind_group_layout
  | camera_bind_group_layout
deriving DecidableEq, Repr

/- The two bind groups created in `State::new` (lines 109-122, 168-177). -/
inductive BindGroupId
  | diffuse_bind_group
  | camera_bind_group
deriving DecidableEq, Repr

/- `wgpu::VertexFormat` variants used by `Vertex::desc`. -/
inductive VertexFormat
  | Float32x3
  | Float32x2
deriving DecidableEq, Repr

/- `wgpu::VertexAttribute`. -/
structure VertexAttribute where
  offset : Nat
  shader_location : Nat
  format : VertexFormat
deriving DecidableEq, Repr

/- `wgpu::VertexBufferLayout` (array_stride in bytes, attribute list). -/
structure VertexBufferLayout where
  array_stride : Nat
  attributes : List VertexAttribute
deriving DecidableEq, Repr

/- `Vertex` (state.rs lines 428-433): position [f32;3] + tex_coords [f32;2],
   coordinates embedded as exact rationals. -/
structure Vertex where
  position : ℚ × ℚ × ℚ
  tex_coords : ℚ × ℚ
deriving DecidableEq, Repr

/- `Vertex::desc` (state.rs lines 436-453): stride = size_of Vertex =
   3*4 + 2*4 = 20 bytes; Float32x3 at offset 0 location 0, Float32x2 at
   offset size_of [f32;3] = 12 location 1. -/
def Vertex.desc : VertexBufferLayout where
  array_stride := 20
  attributes :=
    [ { offset := 0, shader_location := 0, format := VertexFormat.Float32x3 },
      { offset := 12, shader_location := 1, format := VertexFormat.Float32x2 } ]

/- A render pipeline as configured in `State::new`: its pipeline layout's
   bind group layouts and its vertex state's buffer list. -/
structure RenderPipelineDescriptor where
  bind_group_layouts : List BindGroupLayoutId
  vertex_buffers : List VertexBufferLayout
deriving DecidableEq, Repr

/- The single shared `render_pipeline_layout` (state.rs lines 183-190):
   both bind group layouts, in this order. -/
def render_pipeline_layout : List BindGroupLayoutId :=
  [ BindGroupLayoutId.texture_bind_group_layout,
    BindGroupLayoutId.camera_bind_group_layout ]

/- `standard_pipeline` (state.rs lines 191-227): shared layout, one vertex
   buffer input described by `Vertex::desc`. -/
def standard_pipeline : RenderPipelineDescriptor where
  bind_group_layouts := render_pipeline_layout
  vertex_buffers := [Vertex.desc]

/- `position_color_pipeline` (state.rs lines 232-268): the SAME shared
   layout (line 234), and an empty vertex buffer list (line 238). -/
def position_color_pipeline : RenderPipelineDescriptor where
  bind_group_layouts := render_pipeline_layout
  vertex_buffers := []

/- `RenderPipelineState::pipeline` (state.rs lines 408-417). -/
def RenderPipelineState.pipeline : RenderState → RenderPipelineDescriptor
  | RenderState.Standard => standard_pipeline
  | RenderState.PositionColor => position_color_pipeline

/- `std::ops::Range<u32>` as used for index ranges. -/
structure RangeU32 where
  start : Nat
  «end» : Nat
deriving DecidableEq, Repr

/- `VERTICES` (state.rs lines 456-470): 13 vertices in one shared buffer. -/
def VERTICES : List Vertex :=
  [ ⟨(-0.0868241, 0.49240386, 0.0), (0.4131759, 0.00759614)⟩,
    ⟨(-0.49513406, 0.06958647, 0.0), (0.0048659444, 0.43041354)⟩,
    ⟨(-0.21918549, -0.44939706, 0.0), (0.28081453, 0.949397)⟩,
    ⟨(0.35966998, -0.3473291, 0.0), (0.85967, 0.84732914)⟩,
    ⟨(0.44147372, 0.2347359, 0.0), (0.9414737, 0.2652641)⟩,
    ⟨(0.0, 2.0, 0.0), (0.9, 0.9)⟩,
    ⟨(-0.15, 1.0, 0.0), (0.5, 0.5)⟩,
    ⟨(0.15, 1.0, 0.0), (0.5, 0.5)⟩,
    ⟨(0.0, 1.0, 0.0), (0.5, 0.5)⟩,
    ⟨(0.0, 1.0, 0.0), (0.5, 0.5)⟩,
    ⟨(-0.07, 0.0, 0.0), (0.1, 0.1)⟩,
    ⟨(-0.07, 0.0, 0.0), (0.1, 0.1)⟩,
    ⟨(0.0, 0.0, 0.0), (0.1, 0.1)⟩ ]

/- `INDICES` (state.rs lines 472-486): pentagon (3 triangles) then arrow
   (8 triangles) in one shared u16 index buffer. -/
def INDICES : List Nat :=
  [ 0, 1, 4,
    1, 2, 4,
    2, 3, 4,
    5, 6, 7,
    7, 8, 5,
    5, 8, 6,
    6, 7, 8,
    9, 10, 11,
    11, 12, 9,
    12, 9, 10,
    10, 11, 12 ]

/- `ShapeState::index_buffer_indices` (state.rs lines 528-537). -/
def ShapeState.index_buffer_indices : Shapes → RangeU32
  | Shapes.Pentagon => ⟨0, 9⟩
  | Shapes.Arrow => ⟨9, 9 + 24⟩

/- `ShapeState::base_vertex` (state.rs lines 543-545). -/
def ShapeState.base_vertex : Shapes → Int
  | _ => 0

/- One command recorded into the render pass in `State::render`. -/
inductive RenderCommand
  | set_pipeline (p : RenderPipelineDescriptor)
  | set_bind_group (slot : Nat) (group : BindGroupId)
  | set_vertex_buffer (slot : Nat)
  | set_index_buffer
  | draw_indexed (indices : RangeU32) (base_vertex : Int) (instances : RangeU32)
deriving DecidableEq, Repr

/- The render pass recorded by `State::render` (state.rs lines 355-378) on
   a successfully acquired frame: the active pipeline, then UNCONDITIONALLY
   both bind groups, the vertex buffer at slot 0 and the index buffer, then
   one indexed draw over the active shape's range. -/
def State.render_commands (s : State) : List RenderCommand :=
  [ RenderCommand.set_pipeline (RenderPipelineState.pipeline s.render_state),
    RenderCommand.set_bind_group 0 BindGroupId.diffuse_bind_group,
    RenderCommand.set_bind_group 1 BindGroupId.camera_bind_group,
    RenderCommand.set_vertex_buffer 0,
    RenderCommand.set_index_buffer,
    RenderCommand.draw_indexed (ShapeState.index_buffer_indices s.shape_state)
      (ShapeState.base_vertex s.shape_state) ⟨0, 1⟩ ]

/- Recognises a set_bind_group command. -/
def is_set_bind_group : RenderCommand → Bool
  | RenderCommand.set_bind_group _ _ => true
  | _ => false

/- Recognises a set_vertex_buffer command. -/
def is_set_vertex_buffer : RenderCommand → Bool
  | RenderCommand.set_vertex_buffer _ => true
  | _ => false

/- `State::resize` (state.rs lines 303-310): when both dimensions are
   positive, store the new size, copy it into the surface configuration and
   call `surface.configure` once; otherwise do nothing. The second
   component counts the `surface.configure` calls performed. -/
def State.resize (s : State) (new_size : PhysicalSize) : State × Nat :=
  if new_size.width > 0 ∧ new_size.height > 0 then
    ({ s with size := new_size,
              config := { s.config with width := new_size.width,
                                        height := new_size.height } }, 1)
  else (s, 0)

/- `wgpu::SurfaceError` variants matched in lib.rs. -/
inductive SurfaceError
  | Lost
  | Outdated
  | OutOfMemory
  | Timeout
deriving DecidableEq, Repr

/- The log calls issued by the event loop's error arms (lib.rs). -/
inductive LogMessage
  | error_out_of_memory
  | warn_surface_timeout
deriving DecidableEq, Repr

/- What one RedrawRequested iteration did: resulting state, number of
   `surface.configure` calls, whether the frame was presented, log output,
   and whether the event loop was told to exit. -/
structure RedrawOutcome where
  state : State
  configure_calls : Nat
  frame_presented : Bool
  logs : List LogMessage
  exited : Bool
deriving DecidableEq, Repr

/- The RedrawRequested arm of the event loop (lib.rs lines 73-91), given
   the result of `state.render()` (`none` = Ok). `State::render` itself
   only reads the modelled fields; on Lost/Outdated the loop calls
   `state.resize(state.size)`; on OutOfMemory it logs an error and exits;
   on Timeout it logs a warning and continues. -/
def redraw_requested (s : State) : Option SurfaceError → RedrawOutcome
  | none => ⟨s, 0, true, [], false⟩
  | some SurfaceError.Lost =>
      ⟨(s.resize s.size).1, (s.resize s.size).2, false, [], false⟩
  | some SurfaceError.Outdated =>
      ⟨(s.resize s.size).1, (s.resize s.size).2, false, [], false⟩
  | some SurfaceError.OutOfMemory =>
      ⟨s, 0, false, [LogMessage.error_out_of_memory], true⟩
  | some SurfaceError.Timeout =>
      ⟨s, 0, false, [LogMessage.warn_surface_timeout], false⟩

/- One mutating call on `State`, as issued by the event loop: resize on a
   Resized event, input on any window event, the per-frame update, or a
   render with its acquisition result. `State::update` (state.rs lines
   340-344) writes only the camera fields, none of which are modelled
   fields, so it is the identity here. -/
inductive Op
  | resize (new_size : PhysicalSize)
  | input (event : WindowEvent)
  | update
  | render (result : Option SurfaceError)
deriving DecidableEq, Repr

/- Applying one operation to the modelled state. -/
def apply_op (s : State) : Op → State
  | Op.resize ns => (s.resize ns).1
  | Op.input e => s.input e
  | Op.update => s
  | Op.render r => (redraw_requested s r).state

/- Folding a sequence of operations. -/
def apply_ops (s : State) (ops : List Op) : State :=
  ops.foldl apply_op s

/- The invariant of claim C9: the surface configuration dimensions agree
   with the stored size. -/
def config_matches_size (s : State) : Prop :=
  s.config.width = s.size.width ∧ s.config.height = s.size.height

/-- Modelled from the spec: the camera module (camera.rs: `Camera`,
`CameraController::update_camera`) is not under src/. Per the spec, forward
motion moves the eye toward the target scaled by the controller speed, and
is clamped to never cross the target. The eye's position along the
eye-to-target axis is represented by its remaining distance to the target:
a forward step of size `speed` is applied only while it is smaller than the
remaining distance, otherwise the eye stays in place (the clamp). -/
def update_camera_forward (dist speed : ℚ) : ℚ :=
  if speed < dist then dist - speed else dist

lemma next_next (m : RenderState) :
    RenderPipelineState.next (RenderPipelineState.next m) = m := by
  cases m <;> rfl

lemma swap_swap (sh : Shapes) : ShapeState.swap (ShapeState.swap sh) = sh := by
  cases sh <;> rfl

lemma input_render_state (s : State) (e : WindowEvent) :
    (s.input e).render_state =
      if toggle_mode_edge e then RenderPipelineState.next s.render_state
      else s.render_state := by
  cases e with
  | MouseInput st b => cases st <;> cases b <;> rfl
  | KeyboardInput ev =>
      obtain ⟨k, st, rp⟩ := ev
      cases k <;> cases st <;> cases rp <;> rfl
  | Resized ns => rfl
  | RedrawRequested => rfl
  | CloseRequested => rfl

lemma input_shape_state (s : State) (e : WindowEvent) :
    (s.input e).shape_state =
      if toggle_shape_edge e then ShapeState.swap s.shape_state
      else s.shape_state := by
  cases e with
  | MouseInput st b => cases st <;> cases b <;> rfl
  | KeyboardInput ev =>
      obtain ⟨k, st, rp⟩ := ev
      cases k <;> cases st <;> cases rp <;> rfl
  | Resized ns => rfl
  | RedrawRequested => rfl
  | CloseRequested => rfl

lemma inputs_render_state (events : List WindowEvent) (s : State) :
    (s.inputs events).render_state =
      if events.countP toggle_mode_edge % 2 = 0 then s.render_state
      else RenderPipelineState.next s.render_state := by
  induction events generalizing s with
  | nil => simp [State.inputs]
  | cons e rest ih =>
      have hstep : State.inputs s (e :: rest) = State.inputs (s.input e) rest := rfl
      rw [hstep, ih, List.countP_cons, input_render_state]
      by_cases he : toggle_mode_edge e = true
      · rcases Nat.even_or_odd (rest.countP toggle_mode_edge) with hev | hod
        · rw [Nat.even_iff] at hev
          simp [he, hev, Nat.add_mod, next_next]
        · rw [Nat.odd_iff] at hod
          simp [he, hod, Nat.add_mod, next_next]
      · simp [he]

lemma inputs_shape_state (events : List WindowEvent) (s : State) :
    (s.inputs events).shape_state =
      if events.countP toggle_shape_edge % 2 = 0 then s.shape_state
      else ShapeState.swap s.shape_state := by
  induction events generalizing s with
  | nil => simp [State.inputs]
  | cons e rest ih =>
      have hstep : State.inputs s (e :: rest) = State.inputs (s.input e) rest := rfl
      rw [hstep, ih, List.countP_cons, input_shape_state]
      by_cases he : toggle_shape_edge e = true
      · rcases Nat.even_or_odd (rest.countP toggle_shape_edge) with hev | hod
        · rw [Nat.even_iff] at hev
          simp [he, hev, Nat.add_mod, swap_swap]
        · rw [Nat.odd_iff] at hod
          simp [he, hod, Nat.add_mod, swap_swap]
      · simp [he]

/-- C1: over any sequence of window events, the active RenderMode depends
only on the parity of the toggle-mode press edges it contains (initial mode
if even, the other mode if odd), and the active Shape depends only on the
parity of the toggle-shape press edges; in particular each 2-cycle holds
regardless of interleaved edges of the other kind. -/
theorem toggle_two_cycle (s : State) (events : List WindowEvent) :
    ((s.inputs events).render_state =
      if events.countP toggle_mode_edge % 2 = 0 then s.render_state
      else RenderPipelineState.next s.render_state) ∧
    ((s.inputs events).shape_state =
      if events.countP toggle_shape_edge % 2 = 0 then s.shape_state
      else ShapeState.swap s.shape_state) :=
  ⟨inputs_render_state events s, inputs_shape_state events s⟩

lemma input_repeat_true (s : State) (k : KeyCode) (st : ElementState) :
    s.input (WindowEvent.KeyboardInput ⟨k, st, true⟩) = s := by
  cases k <;> cases st <;> rfl

lemma inputs_replicate_inert (e : WindowEvent)
    (h : ∀ t : State, t.input e = t) (n : Nat) (s : State) :
    s.inputs (List.replicate n e) = s := by
  induction n generalizing s with
  | zero => rfl
  | succ m ih =>
      have hstep :
          State.inputs s (List.replicate (m + 1) e) =
            State.inputs (s.input e) (List.replicate m e) := rfl
      rw [hstep, h, ih]

lemma inputs_append (s : State) (l₁ l₂ : List WindowEvent) :
    s.inputs (l₁ ++ l₂) = (s.inputs l₁).inputs l₂ := by
  simp [State.inputs, List.foldl_append]

/-- C2: a keyboard event carrying repeat=true never changes the state at
all; in the scenario press(repeat=false), then n synthetic repeat=true
events, then release and a fresh press(repeat=false), the mode flips on the
first press, stays flipped through every repeat event, and flips back
exactly on the final press. -/
theorem repeat_events_inert (s : State) (n : Nat) (k : KeyCode)
    (st : ElementState) :
    s.input (WindowEvent.KeyboardInput ⟨k, st, true⟩) = s ∧
    (s.input space_press).render_state =
      RenderPipelineState.next s.render_state ∧
    (s.inputs (space_press :: List.replicate n space_held)).render_state =
      RenderPipelineState.next s.render_state ∧
    (s.inputs ((space_press :: List.replicate n space_held) ++
        [space_release, space_press])).render_state = s.render_state := by
  have hheld : ∀ t : State, t.input space_held = t := fun t => rfl
  have hrep : ∀ t : State, t.inputs (List.replicate n space_held) = t :=
    inputs_replicate_inert space_held hheld n
  refine ⟨input_repeat_true s k st, rfl, ?_, ?_⟩
  · have hstep :
        State.inputs s (space_press :: List.replicate n space_held) =
          State.inputs (s.input space_press) (List.replicate n space_held) :=
      rfl
    rw [hstep, hrep]
    rfl
  · rw [inputs_append]
    have hmid :
        State.inputs s (space_press :: List.replicate n space_held) =
          s.input space_press := by
      have hstep :
          State.inputs s (space_press :: List.replicate n space_held) =
            State.inputs (s.input space_press) (List.replicate n space_held) :=
        rfl
      rw [hstep, hrep]
    rw [hmid]
    show RenderPipelineState.next (RenderPipelineState.next s.render_state) =
      s.render_state
    exact next_next s.render_state

/-- C3: a primary-pointer press edge adds exactly +0.15 to r, +0.1 to g
(written g -= -0.1 in the source) and +0.2 to b while leaving a unchanged,
and from the initial clear color (0.1, 0.2, 0.2, 1.0) three press edges
yield r=0.55, g=0.5, b=0.8. -/
theorem clear_accumulation (s : State) (sz : PhysicalSize) :
    (s.input mouse_left_press).clear =
      { r := s.clear.r + 0.15, g := s.clear.g + 0.1,
        b := s.clear.b + 0.2, a := s.clear.a } ∧
    ((State.new sz).inputs
        [mouse_left_press, mouse_left_press, mouse_left_press]).clear =
      { r := 0.55, g := 0.5, b := 0.8, a := 1.0 } := by
  constructor
  · show (s.alter_clear).clear = _
    simp only [State.alter_clear, Color.mk.injEq]
    norm_num
  · show (((State.new sz).alter_clear).alter_clear).alter_clear.clear = _
    simp only [State.alter_clear, State.new, Color.mk.injEq]
    norm_num

/-- C4 counterexample: in the state reached by one toggle-mode press from
the initial state, the active RenderMode is PositionColor, yet the render
pass does NOT issue the draw with zero bind groups bound: it records a
nonzero number of set_bind_group commands (in fact two). -/
theorem vertex_colored_draw_counterexample :
    ((State.new ⟨800, 600⟩).input space_press).render_state =
      RenderState.PositionColor ∧
    ¬ (((State.new ⟨800, 600⟩).input space_press).render_commands.countP
        is_set_bind_group = 0) := by
  constructor
  · rfl
  · decide

/-- C4 amended: the PositionColor pipeline does declare zero vertex buffer
inputs and the Standard pipeline declares one (Vertex::desc), but the two
pipelines share one layout carrying both the texture+sampler and camera
bind group layouts, and the render pass binds both bind groups and sets a
vertex buffer unconditionally, in both modes. -/
theorem pipeline_asymmetry_render_bindings (s : State) :
    position_color_pipeline.vertex_buffers = [] ∧
    standard_pipeline.vertex_buffers = [Vertex.desc] ∧
    position_color_pipeline.bind_group_layouts = render_pipeline_layout ∧
    standard_pipeline.bind_group_layouts = render_pipeline_layout ∧
    s.render_commands.countP is_set_bind_group = 2 ∧
    s.render_commands.countP is_set_vertex_buffer = 1 ∧
    RenderCommand.set_bind_group 0 BindGroupId.diffuse_bind_group ∈
      s.render_commands ∧
    RenderCommand.set_bind_group 1 BindGroupId.camera_bind_group ∈
      s.render_commands := by
  refine ⟨rfl, rfl, rfl, rfl, rfl, rfl, ?_, ?_⟩
  · simp [State.render_commands]
  · simp [State.render_commands]

/-- C5: each shape's index range (Pentagon 0..9, Arrow 9..33) lies inside
the shared index buffer, every index value in the range is below the shared
vertex buffer's vertex count, the base vertex is 0, and the two ranges tile
the shared index buffer consecutively (the shared-buffer strategy). -/
theorem draw_range_in_bounds :
    (∀ sh : Shapes,
      (ShapeState.index_buffer_indices sh).«end» ≤ INDICES.length ∧
      ((INDICES.drop (ShapeState.index_buffer_indices sh).start).take
          ((ShapeState.index_buffer_indices sh).«end» -
            (ShapeState.index_buffer_indices sh).start)).all
        (fun i => decide (i < VERTICES.length)) = true ∧
      ShapeState.base_vertex sh = 0) ∧
    (ShapeState.index_buffer_indices Shapes.Pentagon).start = 0 ∧
    (ShapeState.index_buffer_indices Shapes.Pentagon).«end» =
      (ShapeState.index_buffer_indices Shapes.Arrow).start ∧
    (ShapeState.index_buffer_indices Shapes.Arrow).«end» = INDICES.length := by
  refine ⟨?_, rfl, rfl, ?_⟩
  · intro sh
    cases sh
    · exact ⟨by decide, by decide, rfl⟩
    · exact ⟨by decide, by decide, rfl⟩
  · decide

/-- C6: a resize with a zero dimension leaves the stored size and the
configuration unchanged and performs no reconfiguration; a resize to
800x600 stores the new size, copies it into the configuration, and calls
surface.configure exactly once. -/
theorem resize_zero_and_800 (s : State) (ns : PhysicalSize)
    (h : ns.width = 0 ∨ ns.height = 0) :
    s.resize ns = (s, 0) ∧
    s.resize ⟨800, 600⟩ =
      ({ s with size := ⟨800, 600⟩,
                config := { s.config with width := 800, height := 600 } },
        1) := by
  constructor
  · rcases h with h | h <;> simp [State.resize, h]
  · simp [State.resize]

/-- C6 witness: instantiating the resize theorem at the initial state for
a 640x480 window, a 0x5 resize and the 800x600 resize. -/
theorem resize_zero_and_800_witness :
    (State.new ⟨640, 480⟩).resize ⟨0, 5⟩ = (State.new ⟨640, 480⟩, 0) ∧
    (State.new ⟨640, 480⟩).resize ⟨800, 600⟩ =
      ({ State.new ⟨640, 480⟩ with
          size := ⟨800, 600⟩,
          config := { (State.new ⟨640, 480⟩).config with
                        width := 800, height := 600 } },
        1) :=
  resize_zero_and_800 (State.new ⟨640, 480⟩) ⟨0, 5⟩ (Or.inl rfl)

/-- C7: on Lost or Outdated acquisition the loop reconfigures the surface
once at the current stored size and skips the frame without exiting; on
OutOfMemory it logs an error and exits; on Timeout it logs a warning,
skips the frame and continues. -/
theorem surface_error_handling (s : State) (e : SurfaceError)
    (hW : s.size.width > 0) (hH : s.size.height > 0) :
    ((e = SurfaceError.Lost ∨ e = SurfaceError.Outdated) →
      redraw_requested s (some e) =
        ⟨{ s with config := { s.config with width := s.size.width,
                                            height := s.size.height } },
          1, false, [], false⟩) ∧
    redraw_requested s (some SurfaceError.OutOfMemory) =
      ⟨s, 0, false, [LogMessage.error_out_of_memory], true⟩ ∧
    redraw_requested s (some SurfaceError.Timeout) =
      ⟨s, 0, false, [LogMessage.warn_surface_timeout], false⟩ := by
  refine ⟨?_, rfl, rfl⟩
  intro he
  have hres : s.resize s.size =
      ({ s with size := s.size,
                config := { s.config with width := s.size.width,
                                          height := s.size.height } }, 1) := by
    rw [State.resize, if_pos ⟨hW, hH⟩]
  rcases he with he | he <;> subst he <;> simp [redraw_requested, hres]

/-- C7 witness: instantiating the surface-error theorem at the initial
state for an 800x600 window and the Lost error. -/
theorem surface_error_handling_witness :
    ((SurfaceError.Lost = SurfaceError.Lost ∨
        SurfaceError.Lost = SurfaceError.Outdated) →
      redraw_requested (State.new ⟨800, 600⟩) (some SurfaceError.Lost) =
        ⟨{ State.new ⟨800, 600⟩ with
            config := { (State.new ⟨800, 600⟩).config with
                          width := (State.new ⟨800, 600⟩).size.width,
                          height := (State.new ⟨800, 600⟩).size.height } },
          1, false, [], false⟩) ∧
    redraw_requested (State.new ⟨800, 600⟩) (some SurfaceError.OutOfMemory) =
      ⟨State.new ⟨800, 600⟩, 0, false,
        [LogMessage.error_out_of_memory], true⟩ ∧
    redraw_requested (State.new ⟨800, 600⟩) (some SurfaceError.Timeout) =
      ⟨State.new ⟨800, 600⟩, 0, false,
        [LogMessage.warn_surface_timeout], false⟩ :=
  surface_error_handling (State.new ⟨800, 600⟩) SurfaceError.Lost
    (by decide) (by decide)

/-- C8: forward motion never moves the eye past the look-at point: from a
nonnegative remaining distance the distance after a forward step stays
nonnegative, and a step at least as large as the remaining distance leaves
the eye in place (the clamp). -/
theorem camera_forward_clamp (dist speed : ℚ) (hd : 0 ≤ dist) :
    0 ≤ update_camera_forward dist speed ∧
    (dist ≤ speed → update_camera_forward dist speed = dist) := by
  refine ⟨?_, ?_⟩
  · by_cases h : speed < dist
    · rw [update_camera_forward, if_pos h]
      linarith
    · rw [update_camera_forward, if_neg h]
      exact hd
  · intro hle
    rw [update_camera_forward, if_neg (not_lt.mpr hle)]

/-- C8 witness: instantiating the clamp theorem at remaining distance 1
and speed 5 (a step larger than the remaining distance). -/
theorem camera_forward_clamp_witness :
    0 ≤ update_camera_forward 1 5 ∧
    ((1 : ℚ) ≤ 5 → update_camera_forward 1 5 = 1) :=
  camera_forward_clamp 1 5 zero_le_one

lemma input_config (s : State) (e : WindowEvent) :
    (s.input e).config = s.config := by
  cases e with
  | MouseInput st b => cases st <;> cases b <;> rfl
  | KeyboardInput ev =>
      obtain ⟨k, st, rp⟩ := ev
      cases k <;> cases st <;> cases rp <;> rfl
  | Resized ns => rfl
  | RedrawRequested => rfl
  | CloseRequested => rfl

lemma input_size (s : State) (e : WindowEvent) :
    (s.input e).size = s.size := by
  cases e with
  | MouseInput st b => cases st <;> cases b <;> rfl
  | KeyboardInput ev =>
      obtain ⟨k, st, rp⟩ := ev
      cases k <;> cases st <;> cases rp <;> rfl
  | Resized ns => rfl
  | RedrawRequested => rfl
  | CloseRequested => rfl

lemma input_clear_a (s : State) (e : WindowEvent) :
    (s.input e).clear.a = s.clear.a := by
  cases e with
  | MouseInput st b => cases st <;> cases b <;> rfl
  | KeyboardInput ev =>
      obtain ⟨k, st, rp⟩ := ev
      cases k <;> cases st <;> cases rp <;> rfl
  | Resized ns => rfl
  | RedrawRequested => rfl
  | CloseRequested => rfl

lemma resize_config_matches (s : State) (ns : PhysicalSize)
    (hs : config_matches_size s) : config_matches_size (s.resize ns).1 := by
  rw [State.resize]
  by_cases h : ns.width > 0 ∧ ns.height > 0
  · rw [if_pos h]
    exact ⟨rfl, rfl⟩
  · rw [if_neg h]
    exact hs

lemma resize_clear (s : State) (ns : PhysicalSize) :
    ((s.resize ns).1).clear = s.clear := by
  rw [State.resize]
  by_cases h : ns.width > 0 ∧ ns.height > 0
  · rw [if_pos h]
  · rw [if_neg h]

lemma apply_op_config_matches (s : State) (hs : config_matches_size s)
    (op : Op) : config_matches_size (apply_op s op) := by
  cases op with
  | resize ns => exact resize_config_matches s ns hs
  | input e =>
      show config_matches_size (s.input e)
      unfold config_matches_size
      rw [input_config, input_size]
      exact hs
  | update => exact hs
  | render r =>
      cases r with
      | none => exact hs
      | some e =>
          cases e with
          | Lost => exact resize_config_matches s s.size hs
          | Outdated => exact resize_config_matches s s.size hs
          | OutOfMemory => exact hs
          | Timeout => exact hs

/-- C9: the invariant config.width = size.width and config.height =
size.height holds after construction, is preserved by every resize, input,
update and render operation, and therefore holds after any operation
sequence from the initial state. -/
theorem config_size_invariant (size0 : PhysicalSize) (ops : List Op) :
    config_matches_size (State.new size0) ∧
    (∀ s : State, config_matches_size s → ∀ op : Op,
      config_matches_size (apply_op s op)) ∧
    config_matches_size (apply_ops (State.new size0) ops) := by
  have hnew : config_matches_size (State.new size0) := ⟨rfl, rfl⟩
  have hops : ∀ s : State, config_matches_size s →
      config_matches_size (apply_ops s ops) := by
    induction ops with
    | nil => exact fun s hs => hs
    | cons op rest ih =>
        intro s hs
        have hstep : apply_ops s (op :: rest) =
            apply_ops (apply_op s op) rest := rfl
        rw [hstep]
        exact ih _ (apply_op_config_matches s hs op)
  exact ⟨hnew, fun s hs op => apply_op_config_matches s hs op,
    hops _ hnew⟩

/-- C9 witness: the invariant at the initial 640x480 state and after a
concrete sequence of input, resize, update and render operations. -/
theorem config_size_invariant_witness :
    config_matches_size (State.new ⟨640, 480⟩) ∧
    config_matches_size (apply_ops (State.new ⟨640, 480⟩)
      [Op.input space_press, Op.resize ⟨800, 600⟩, Op.update,
        Op.render (some SurfaceError.Lost)]) := by
  have h := config_size_invariant ⟨640, 480⟩
    [Op.input space_press, Op.resize ⟨800, 600⟩, Op.update,
      Op.render (some SurfaceError.Lost)]
  exact ⟨h.1, h.2.2⟩

lemma apply_op_clear_a (s : State) (op : Op) :
    (apply_op s op).clear.a = s.clear.a := by
  cases op with
  | resize ns =>
      show ((s.resize ns).1).clear.a = s.clear.a
      rw [resize_clear]
  | input e => exact input_clear_a s e
  | update => rfl
  | render r =>
      cases r with
      | none => rfl
      | some e =>
          cases e with
          | Lost =>
              show ((s.resize s.size).1).clear.a = s.clear.a
              rw [resize_clear]
          | Outdated =>
              show ((s.resize s.size).1).clear.a = s.clear.a
              rw [resize_clear]
          | OutOfMemory => rfl
          | Timeout => rfl

/-- C10: the clear color's alpha channel is initialized to 1.0, no
operation (resize, input, update, render) ever changes it, and after any
operation sequence from the initial state it still equals 1. -/
theorem clear_alpha_constant (size0 : PhysicalSize) (ops : List Op) :
    (State.new size0).clear.a = 1 ∧
    (∀ s : State, ∀ op : Op, (apply_op s op).clear.a = s.clear.a) ∧
    (apply_ops (State.new size0) ops).clear.a = 1 := by
  have hnew : (State.new size0).clear.a = 1 := by norm_num [State.new]
  have hops : ∀ s : State, (apply_ops s ops).clear.a = s.clear.a := by
    induction ops with
    | nil => exact fun s => rfl
    | cons op rest ih =>
        intro s
        have hstep : apply_ops s (op :: rest) =
            apply_ops (apply_op s op) rest := rfl
        rw [hstep, ih, apply_op_clear_a]
  refine ⟨hnew, fun s op => apply_op_clear_a s op, ?_⟩
  rw [hops, hnew]

end Learnwgpu
